import Mathlib

/-!
Shallow embedding of the real-time collaboration subsystem of the
smart-collab backend (apps/collaboration): rooms, sessions, activities,
cursor positions, the WebSocket consumer handlers and the HTTP join view.

Conventions of the embedding:
* Django model rows become Lean structures; a table becomes a `List` of rows.
* JSON object payloads that the code treats opaquely (cursor positions,
  selections) are carried as association lists `List (String × Nat)`;
  Python dict truthiness (`{}` is falsy) becomes `!isEmpty`.
* Timestamps are natural numbers (seconds); `timedelta(minutes=5)` is 300.
* A `sequence_number` of `0` encodes the unset (falsy) Python value, matching
  `if not self.sequence_number` in `CollaborationActivity.save`.
* External collaborators (team membership, document read permission) are
  passed as boolean-valued functions, as the code calls out to other apps.
-/

namespace SmartCollab

abbrev UserId := Nat
abbrev RoomId := Nat
abbrev SessionId := Nat
abbrev Channel := Nat
abbrev Time := Nat

/-- JSON object payload, opaque to the collaboration code. -/
abbrev JsonObj := List (String × Nat)

/-- Python dict/None truthiness for an optional JSON payload:
`None` and `{}` are falsy, a non-empty dict is truthy. -/
def jsonTruthy : Option JsonObj → Bool
  | none => false
  | some o => !o.isEmpty

/-- Embeds `CollaborationRoom.ROOM_STATUS` (models.py). -/
inductive RoomStatus where
  | active
  | paused
  | archived
deriving DecidableEq, Repr

/-- Embeds `CollaborationSession.SESSION_STATUS` (models.py). -/
inductive SessionStatus where
  | active
  | idle
  | disconnected
deriving DecidableEq, Repr

/-- The fields of `CollaborationRoom` (models.py) that the collaboration
logic reads.  `document` and `team` are represented by the two permission
callbacks passed to `can_join`. -/
structure Room where
  id : RoomId
  status : RoomStatus
  max_participants : Nat
  allow_anonymous : Bool
  enable_cursor_tracking : Bool
deriving DecidableEq, Repr

/-- The fields of `CollaborationSession` (models.py) that the collaboration
logic reads or writes. -/
structure Session where
  id : SessionId
  room : RoomId
  user : UserId
  status : SessionStatus
  connection_id : Channel
  last_seen : Time
deriving DecidableEq, Repr

/-- Embeds `timedelta(minutes=5)` used by the liveness filters, in seconds. -/
def livenessWindow : Time := 5 * 60

/-- The filter `status="active", last_seen__gte=timezone.now() - timedelta(minutes=5)`
applied to one session row. -/
def sessionLive (now : Time) (s : Session) : Bool :=
  s.status == SessionStatus.active && decide (now - livenessWindow ≤ s.last_seen)

/-- Embeds `CollaborationRoom.get_active_sessions` (models.py): the room's sessions
with active status seen within the last five minutes. -/
def get_active_sessions (sessions : List Session) (room : Room) (now : Time) :
    List Session :=
  sessions.filter (fun s => s.room == room.id && sessionLive now s)

/-- Embeds `CollaborationRoom.active_participants_count` (models.py): count of the
room's sessions with active status seen within the last five minutes. -/
def active_participants_count (sessions : List Session) (room : Room) (now : Time) :
    Nat :=
  (sessions.filter (fun s => s.room == room.id && sessionLive now s)).length

/-- Embeds `CollaborationRoom.is_full` (models.py). -/
def is_full (sessions : List Session) (room : Room) (now : Time) : Bool :=
  decide (active_participants_count sessions room now ≥ room.max_participants)

/-- Embeds `CollaborationRoom.can_join` (models.py): room must be active, not full;
team membership is required unless anonymous participants are allowed; the
document must grant read access.  `teamMemberActive u` embeds
`team.memberships.filter(user=u, status="active").exists()` and `canRead u`
embeds `document.can_read(u)`. -/
def can_join (sessions : List Session) (room : Room) (user : UserId) (now : Time)
    (teamMemberActive : UserId → Bool) (canRead : UserId → Bool) : Bool :=
  if room.status != RoomStatus.active then false
  else if is_full sessions room now then false
  else if !room.allow_anonymous && !teamMemberActive user then false
  else if !canRead user then false
  else true

/-- Claim C3: `can_join` returns false exactly when the room is not active, or
the live-session count has reached capacity, or anonymous joins are
disallowed and the principal lacks an active team membership, or the
document-permission check denies read access; in every other case it
returns true. -/
theorem can_join_false_iff (sessions : List Session) (room : Room) (user : UserId)
    (now : Time) (tm cr : UserId → Bool) :
    can_join sessions room user now tm cr = false ↔
      (room.status ≠ RoomStatus.active ∨
       active_participants_count sessions room now ≥ room.max_participants ∨
       (room.allow_anonymous = false ∧ tm user = false) ∨
       cr user = false) := by
  unfold can_join is_full
  split
  · rename_i h
    simp only [bne_iff_ne, ne_eq] at h
    simp [h]
  · rename_i h
    simp only [bne_iff_ne, ne_eq, not_not] at h
    split
    · rename_i h2
      simp only [decide_eq_true_eq] at h2
      simp [h2]
    · rename_i h2
      simp only [decide_eq_true_eq] at h2
      split
      · rename_i h3
        simp only [Bool.and_eq_true, Bool.not_eq_true'] at h3
        simp [h, h2, h3]
      · rename_i h3
        simp only [Bool.and_eq_true, Bool.not_eq_true', not_and] at h3
        split
        · rename_i h4
          simp only [Bool.not_eq_true'] at h4
          simp [h, h2, h3, h4]
        · rename_i h4
          simp only [Bool.not_eq_true'] at h4
          simp [h, h2, h4]
          intro ha
          have h5 := h3 ha
          simpa using h5

/-- Embeds `CollaborationActivity.ACTIVITY_TYPES` (models.py). -/
inductive ActivityType where
  | text_insert
  | text_delete
  | text_format
  | text_replace
  | user_join
  | user_leave
  | cursor_move
  | selection_change
  | comment_add
  | comment_reply
  | comment_resolve
  | document_save
  | room_settings
  | permission_change
deriving DecidableEq, Repr

/-- The `activity_data` JSON payloads that the consumer handlers build
(consumers.py): `handle_text_change`, `handle_document_save`,
`handle_join_room`. -/
inductive ActivityData where
  | textChange (operation : String) (position : JsonObj) (content : String)
      (length : Nat)
  | documentSave (document_version : Option Nat) (auto_save : Bool)
  | userJoin (user_id : UserId) (session_id : SessionId)
deriving DecidableEq, Repr

/-- The fields of `CollaborationActivity` (models.py) the collaboration
logic reads or writes.  `sequence_number = 0` encodes the unset Python
value (the field is assigned on first save and is otherwise ≥ 1). -/
structure Activity where
  id : Nat
  room : RoomId
  session : SessionId
  user : UserId
  activity_type : ActivityType
  activity_data : ActivityData
  document_version : Nat
  client_timestamp : Time
  server_timestamp : Time
  sequence_number : Nat
deriving DecidableEq, Repr

/-- The room-scoped sequence-number computation in
`CollaborationActivity.save` (models.py): the maximum `sequence_number`
among the room's activities plus one, or 1 when the room has none
(`order_by("-sequence_number").first()` yields the maximum row). -/
def next_sequence_number (log : List Activity) (r : RoomId) : Nat :=
  ((log.filter (fun a => a.room == r)).map (fun a => a.sequence_number)).foldr
    max 0 + 1

/-- The `if not self.sequence_number` branch of `CollaborationActivity.save`
(models.py): assign the next room-scoped number when unset, keep the
existing number otherwise. -/
def assign_sequence (log : List Activity) (a : Activity) : Activity :=
  if a.sequence_number == 0 then
    { a with sequence_number := next_sequence_number log a.room }
  else a

/-- Embeds `CollaborationActivity.save` followed by the insert: the saved row (with
its sequence number) and the grown activity table. -/
def activity_save (log : List Activity) (a : Activity) : Activity × List Activity :=
  let a' := assign_sequence log a
  (a', log ++ [a'])

/-- Embeds `CollaborationConsumer.record_activity` (consumers.py): creates the
activity with `client_timestamp=timezone.now()` (the server clock, not a
client-supplied value) and `document_version=1` (hardcoded; the source
carries a TODO), then `save` assigns the sequence number. -/
def record_activity (log : List Activity) (room : RoomId) (sess : SessionId)
    (user : UserId) (ty : ActivityType) (payload : ActivityData) (now : Time)
    (freshId : Nat) : Activity × List Activity :=
  activity_save log
    { id := freshId
      room := room
      session := sess
      user := user
      activity_type := ty
      activity_data := payload
      document_version := 1
      client_timestamp := now
      server_timestamp := now
      sequence_number := 0 }

/-- One accepted inbound action, as passed to `record_activity` by the
consumer handlers: the room it targets and the message data. -/
structure ActivityRequest where
  room : RoomId
  session : SessionId
  user : UserId
  activity_type : ActivityType
  activity_data : ActivityData
  now : Time
  freshId : Nat
deriving DecidableEq, Repr

/-- Sequential server processing of a list of accepted actions, each
persisted through `record_activity`. -/
def run_requests (reqs : List ActivityRequest) : List Activity :=
  reqs.foldl
    (fun log q =>
      (record_activity log q.room q.session q.user q.activity_type
        q.activity_data q.now q.freshId).2)
    []

/-- The sequence numbers of a room's activities, in table (insertion)
order. -/
def room_seqs (log : List Activity) (r : RoomId) : List Nat :=
  (log.filter (fun a => a.room == r)).map (fun a => a.sequence_number)

theorem foldr_max_cons (c : Nat) (xs : List Nat) :
    xs.foldr max c = max (xs.foldr max 0) c := by
  induction xs with
  | nil => simp
  | cons x xs ih => simp [List.foldr_cons, ih, Nat.max_assoc]

theorem foldr_max_range' (k : Nat) :
    (List.range' 1 k).foldr max 0 = k := by
  induction k with
  | zero => simp
  | succ k ih =>
    rw [List.range'_concat, List.foldr_append]
    simp only [List.foldr_cons, List.foldr_nil]
    rw [foldr_max_cons, ih]
    omega

theorem room_seqs_append (log : List Activity) (a : Activity) (r : RoomId) :
    room_seqs (log ++ [a]) r =
      room_seqs log r ++ (if a.room == r then [a.sequence_number] else []) := by
  unfold room_seqs
  rw [List.filter_append, List.map_append]
  split <;> rename_i h <;> simp [List.filter, h]

/-- The per-room log invariant: the sequence numbers of each room's
activities are exactly `1, 2, ..., k` in insertion order. -/
def SeqInvariant (log : List Activity) : Prop :=
  ∀ r : RoomId, room_seqs log r = List.range' 1 (room_seqs log r).length

theorem assign_sequence_zero (log : List Activity) (a : Activity)
    (h : a.sequence_number = 0) :
    assign_sequence log a =
      { a with sequence_number := next_sequence_number log a.room } := by
  unfold assign_sequence
  simp [h]

theorem room_seqs_record (log : List Activity) (room : RoomId)
    (sess : SessionId) (user : UserId) (ty : ActivityType)
    (payload : ActivityData) (now : Time) (fid : Nat) (r : RoomId) :
    room_seqs (record_activity log room sess user ty payload now fid).2 r =
      room_seqs log r ++
        (if room == r then [next_sequence_number log room] else []) := by
  unfold record_activity activity_save
  rw [assign_sequence_zero _ _ rfl, room_seqs_append]

theorem seq_invariant_step (log : List Activity) (q : ActivityRequest)
    (h : SeqInvariant log) :
    SeqInvariant
      (record_activity log q.room q.session q.user q.activity_type
        q.activity_data q.now q.freshId).2 := by
  intro r
  have hr := h r
  have hq := h q.room
  rw [room_seqs_record]
  by_cases hcase : q.room = r
  · subst hcase
    have hcond : (q.room == q.room) = true := by simp
    rw [if_pos hcond]
    have hnext : next_sequence_number log q.room =
        (room_seqs log q.room).length + 1 := by
      unfold next_sequence_number
      have hfm : ((log.filter fun a => a.room == q.room).map
          fun a => a.sequence_number) = room_seqs log q.room := rfl
      rw [hfm]
      conv_lhs => rw [hq]
      rw [foldr_max_range']
    rw [hnext]
    simp only [List.length_append, List.length_singleton]
    conv_lhs => rw [hq]
    rw [List.range'_concat]
    simp [Nat.add_comm]
  · have hcond : ¬((q.room == r) = true) := by simp [hcase]
    rw [if_neg hcond]
    simpa using hr

theorem seq_invariant_run (reqs : List ActivityRequest) :
    SeqInvariant (run_requests reqs) := by
  unfold run_requests
  have main : ∀ (rs : List ActivityRequest) (log : List Activity),
      SeqInvariant log →
      SeqInvariant (rs.foldl
        (fun log q =>
          (record_activity log q.room q.session q.user q.activity_type
            q.activity_data q.now q.freshId).2) log) := by
    intro rs
    induction rs with
    | nil => intro log h; simpa using h
    | cons q rs ih =>
      intro log h
      simp only [List.foldl_cons]
      exact ih _ (seq_invariant_step log q h)
  refine main reqs [] ?_
  intro r
  simp [room_seqs]

/-- Claim C1: starting from an empty log, after the server sequentially
processes any list of accepted actions, every room's sequence numbers are
exactly `1, 2, ..., k` in processing order — strictly increasing, gapless
and unique — and an activity whose sequence number is already assigned
(non-zero) is never renumbered by a later save. -/
theorem sequence_numbers_gapless (reqs : List ActivityRequest) (r : RoomId) :
    room_seqs (run_requests reqs) r =
      List.range' 1 (room_seqs (run_requests reqs) r).length ∧
    (∀ (log : List Activity) (a : Activity) (n : Nat),
      assign_sequence log { a with sequence_number := n + 1 } =
        { a with sequence_number := n + 1 }) := by
  constructor
  · exact seq_invariant_run reqs r
  · intro log a n
    unfold assign_sequence
    simp

/-- Claim C9 divergence: the activity persisted by `record_activity`
always stores the server clock (`timezone.now()`) as `client_timestamp`
and the hardcoded constant `1` as `document_version`, for every inbound
message — the handler accepts no client-supplied timestamp or base
version at all, contradicting the model fields' documented meaning
("Timestamp from client", "Document version at time of activity"). -/
theorem record_activity_ignores_client_fields (log : List Activity)
    (room : RoomId) (sess : SessionId) (user : UserId) (ty : ActivityType)
    (payload : ActivityData) (now : Time) (fid : Nat) :
    (record_activity log room sess user ty payload now fid).1.client_timestamp
        = now ∧
    (record_activity log room sess user ty payload now fid).1.document_version
        = 1 := by
  constructor <;> rfl

/-! ## Sessions: join, reuse, capacity -/

/-- Number of session rows for one `(room, user)` pair; the
`unique_together = ["room", "user"]` constraint on
`CollaborationSession.Meta` (models.py) demands this is at most 1. -/
def pair_count (sessions : List Session) (r : RoomId) (u : UserId) : Nat :=
  (sessions.filter (fun s => s.room == r && s.user == u)).length

/-- Number of session rows for one `(room, user)` pair whose status is not
`disconnected`. -/
def live_pair_count (sessions : List Session) (r : RoomId) (u : UserId) : Nat :=
  (sessions.filter (fun s =>
    s.room == r && s.user == u &&
      !(s.status == SessionStatus.disconnected))).length

/-- The rejoin update in `CollaborationConsumer.get_or_create_session`
(consumers.py): `status = "active"`, new connection handle, refreshed
`last_seen`. -/
def session_reactivate (chan : Channel) (now : Time) (s : Session) : Session :=
  { s with
    status := SessionStatus.active
    connection_id := chan
    last_seen := now }

/-- Embeds `CollaborationConsumer.get_or_create_session` (consumers.py):
`get_or_create` on `(room, user)` — reuse and reactivate the existing row
(saved back by primary key), or insert a fresh active row. -/
def get_or_create_session (sessions : List Session) (room : RoomId)
    (user : UserId) (chan : Channel) (now : Time) (freshId : SessionId) :
    Session × List Session :=
  match sessions.find? (fun s => s.room == room && s.user == user) with
  | some s =>
      (session_reactivate chan now s,
       sessions.map (fun t =>
         if t.id == s.id then session_reactivate chan now t else t))
  | none =>
      let s : Session :=
        { id := freshId
          room := room
          user := user
          status := SessionStatus.active
          connection_id := chan
          last_seen := now }
      (s, sessions ++ [s])

theorem filter_length_map_preserved (l : List Session) (f : Session → Session)
    (hroom : ∀ t, (f t).room = t.room) (huser : ∀ t, (f t).user = t.user)
    (r : RoomId) (u : UserId) :
    ((l.map f).filter (fun s => s.room == r && s.user == u)).length =
      (l.filter (fun s => s.room == r && s.user == u)).length := by
  induction l with
  | nil => rfl
  | cons x xs ih =>
    simp only [List.map_cons, List.filter_cons, hroom, huser]
    cases hx : (x.room == r && x.user == u) <;> simp [hx, ih]

theorem filter_length_mono (l : List Session) (p q : Session → Bool)
    (h : ∀ s, q s = true → p s = true) :
    (l.filter q).length ≤ (l.filter p).length := by
  induction l with
  | nil => exact Nat.le_refl 0
  | cons x xs ih =>
    simp only [List.filter_cons]
    cases hq : q x
    · cases hp : p x
      · simpa using ih
      · simp only [List.length_cons]
        exact Nat.le_succ_of_le ih
    · rw [h x hq]
      simp only [List.length_cons]
      exact Nat.succ_le_succ ih

theorem mem_of_length_le_one {α : Type} {l : List α} (h : l.length ≤ 1)
    {a b : α} (ha : a ∈ l) (hb : b ∈ l) : a = b := by
  cases l with
  | nil => cases ha
  | cons x xs =>
    cases xs with
    | nil =>
      rw [List.mem_singleton] at ha hb
      rw [ha, hb]
    | cons y ys =>
      exfalso
      simp only [List.length_cons] at h
      omega

theorem live_pair_le_pair (l : List Session) (r : RoomId) (u : UserId) :
    live_pair_count l r u ≤ pair_count l r u := by
  apply filter_length_mono
  intro s hs
  simp only [Bool.and_eq_true] at hs ⊢
  exact hs.1

theorem pair_count_reactivate_map (sessions : List Session) (sid : SessionId)
    (chan : Channel) (now : Time) (r' : RoomId) (u' : UserId) :
    pair_count
      (sessions.map (fun t =>
        if t.id == sid then session_reactivate chan now t else t)) r' u' =
      pair_count sessions r' u' := by
  unfold pair_count
  rw [filter_length_map_preserved]
  · intro t
    split <;> rfl
  · intro t
    split <;> rfl

/-- Claim C2: starting from a session table satisfying the
`unique_together ["room", "user"]` constraint, `get_or_create_session`
keeps at most one row — hence at most one row with status other than
disconnected — per `(room, user)` pair, and when a session for the pair
already exists it returns that same row (same id), reactivated with
active status and refreshed `last_seen`, without growing the table. -/
theorem session_unique_per_pair (sessions : List Session) (r : RoomId)
    (u : UserId) (chan : Channel) (now : Time) (fid : SessionId)
    (hinv : ∀ r' u', pair_count sessions r' u' ≤ 1) :
    (∀ r' u',
      pair_count (get_or_create_session sessions r u chan now fid).2 r' u'
        ≤ 1) ∧
    (∀ r' u',
      live_pair_count (get_or_create_session sessions r u chan now fid).2 r' u'
        ≤ 1) ∧
    (∀ s ∈ sessions, s.room = r → s.user = u →
      (get_or_create_session sessions r u chan now fid).1.id = s.id ∧
      (get_or_create_session sessions r u chan now fid).1.status
          = SessionStatus.active ∧
      (get_or_create_session sessions r u chan now fid).1.last_seen = now ∧
      (get_or_create_session sessions r u chan now fid).2.length
          = sessions.length) := by
  have c1 : ∀ r' u',
      pair_count (get_or_create_session sessions r u chan now fid).2 r' u'
        ≤ 1 := by
    intro r' u'
    cases hfind : sessions.find? (fun s => s.room == r && s.user == u) with
    | some s₀ =>
      unfold get_or_create_session
      rw [hfind]
      rw [pair_count_reactivate_map]
      exact hinv r' u'
    | none =>
      unfold get_or_create_session
      rw [hfind]
      unfold pair_count
      rw [List.filter_append, List.length_append]
      by_cases hmatch : ((r == r') && (u == u')) = true
      · have hr' : r = r' := by
          simp only [Bool.and_eq_true, beq_iff_eq] at hmatch
          exact hmatch.1
        have hu' : u = u' := by
          simp only [Bool.and_eq_true, beq_iff_eq] at hmatch
          exact hmatch.2
        subst hr'
        subst hu'
        have hzero : sessions.filter (fun s => s.room == r && s.user == u)
            = [] := by
          rw [List.filter_eq_nil_iff]
          exact List.find?_eq_none.mp hfind
        rw [hzero]
        simp [List.filter_cons]
      · have hlit : (sessions.filter
            (fun s => s.room == r' && s.user == u')).length ≤ 1 := hinv r' u'
        simp only [List.filter_cons, List.filter_nil]
        rw [if_neg]
        · simpa using hlit
        · simpa using hmatch
  have c2 : ∀ r' u',
      live_pair_count (get_or_create_session sessions r u chan now fid).2 r' u'
        ≤ 1 :=
    fun r' u' => Nat.le_trans (live_pair_le_pair _ r' u') (c1 r' u')
  have c3 : ∀ s ∈ sessions, s.room = r → s.user = u →
      (get_or_create_session sessions r u chan now fid).1.id = s.id ∧
      (get_or_create_session sessions r u chan now fid).1.status
          = SessionStatus.active ∧
      (get_or_create_session sessions r u chan now fid).1.last_seen = now ∧
      (get_or_create_session sessions r u chan now fid).2.length
          = sessions.length := by
    intro s hs hr hu
    cases hfind : sessions.find? (fun t => t.room == r && t.user == u) with
    | none =>
      exfalso
      have hcontra := List.find?_eq_none.mp hfind s hs
      simp [hr, hu] at hcontra
    | some s₀ =>
      have hps : (s.room == r && s.user == u) = true := by
        simp [hr, hu]
      have hp₀ : (s₀.room == r && s₀.user == u) = true := by
        have htmp := List.find?_some
          (p := fun (t : Session) => t.room == r && t.user == u) hfind
        simpa using htmp
      have hm₀ : s₀ ∈ sessions := List.mem_of_find?_eq_some hfind
      have hlen : (sessions.filter
          (fun t => t.room == r && t.user == u)).length ≤ 1 := hinv r u
      have heq : s = s₀ :=
        mem_of_length_le_one hlen (List.mem_filter.mpr ⟨hs, hps⟩)
          (List.mem_filter.mpr ⟨hm₀, hp₀⟩)
      unfold get_or_create_session
      rw [hfind]
      subst heq
      exact ⟨rfl, rfl, rfl, by simp⟩
  exact ⟨c1, c2, c3⟩

/-- An idle prior session used to exercise the rejoin path. -/
def priorSession : Session :=
  { id := 5
    room := 1
    user := 2
    status := SessionStatus.idle
    connection_id := 9
    last_seen := 0 }

/-- Witness for `session_unique_per_pair`: rejoining room 1 as user 2 with
an existing idle session reuses row id 5, reactivates it and leaves the
table at one row. -/
theorem session_unique_per_pair_witness :
    pair_count (get_or_create_session [priorSession] 1 2 3 100 6).2 1 2 ≤ 1 ∧
    live_pair_count (get_or_create_session [priorSession] 1 2 3 100 6).2 1 2
        ≤ 1 ∧
    (get_or_create_session [priorSession] 1 2 3 100 6).1.id = 5 ∧
    (get_or_create_session [priorSession] 1 2 3 100 6).1.status
        = SessionStatus.active ∧
    (get_or_create_session [priorSession] 1 2 3 100 6).1.last_seen = 100 ∧
    (get_or_create_session [priorSession] 1 2 3 100 6).2.length = 1 := by
  have hinv : ∀ r' u', pair_count [priorSession] r' u' ≤ 1 := by
    intro r' u'
    unfold pair_count
    simp only [List.filter_cons, List.filter_nil]
    split <;> simp
  have h := session_unique_per_pair [priorSession] 1 2 3 100 6 hinv
  have h3 := h.2.2 priorSession (by simp) rfl rfl
  exact ⟨h.1 1 2, h.2.1 1 2, h3.1, h3.2.1, h3.2.2.1, by simpa using h3.2.2.2⟩

/-! ## The HTTP join endpoint -/

/-- Outcome of `CollaborationRoomViewSet.join` (views.py): either the
joined session, or the DRF `ValidationError` detail raised by
`JoinRoomSerializer.validate` (serializers.py). -/
inductive JoinOutcome where
  | success (session : Session)
  | validation_error (detail : String)
deriving DecidableEq, Repr

/-- Embeds `CollaborationRoomViewSet.join` (views.py) with
`JoinRoomSerializer.validate` (serializers.py): validation raises
`ValidationError("Cannot join this room")` whenever `room.can_join(user)`
is false — whatever the failing check was — and only then is the session
fetched or created.  The pair is the HTTP outcome together with the
resulting session table (unchanged on failure). -/
def room_join (sessions : List Session) (room : Room) (user : UserId)
    (now : Time) (chan : Channel) (fid : SessionId)
    (tm cr : UserId → Bool) : JoinOutcome × List Session :=
  if !(can_join sessions room user now tm cr) then
    (JoinOutcome.validation_error "Cannot join this room", sessions)
  else
    ((JoinOutcome.success
        (get_or_create_session sessions room.id user chan now fid).1),
     (get_or_create_session sessions room.id user chan now fid).2)

/-- A capacity-1 room holding one live session. -/
def fullRoom : Room :=
  { id := 1
    status := RoomStatus.active
    max_participants := 1
    allow_anonymous := true
    enable_cursor_tracking := true }

/-- A paused (not active) room. -/
def pausedRoom : Room :=
  { id := 2
    status := RoomStatus.paused
    max_participants := 50
    allow_anonymous := true
    enable_cursor_tracking := true }

/-- The live session occupying `fullRoom`. -/
def occupant : Session :=
  { id := 1
    room := 1
    user := 1
    status := SessionStatus.active
    connection_id := 1
    last_seen := 100 }

/-- Claim C4 counterexample: the source has no typed `RoomFullError`.
Joining the full room and joining a merely paused room produce the
identical generic `ValidationError("Cannot join this room")`, so the
error carries no room-full type. -/
theorem join_full_room_error_untyped :
    is_full [occupant] fullRoom 100 = true ∧
    (room_join [occupant] fullRoom 2 100 9 5 (fun _ => true)
        (fun _ => true)).1
      = JoinOutcome.validation_error "Cannot join this room" ∧
    (room_join [] pausedRoom 2 100 9 5 (fun _ => true) (fun _ => true)).1
      = JoinOutcome.validation_error "Cannot join this room" := by
  decide

/-- Claim C4 amended: a join attempt on a room whose live-session count
has reached capacity is rejected with the generic
`ValidationError("Cannot join this room")` — the same untyped error as
every other failed join — and the session table is unchanged: no Session
row is created. -/
theorem join_full_room_rejected (sessions : List Session) (room : Room)
    (user : UserId) (now : Time) (chan : Channel) (fid : SessionId)
    (tm cr : UserId → Bool)
    (hfull : active_participants_count sessions room now
      ≥ room.max_participants) :
    room_join sessions room user now chan fid tm cr =
      (JoinOutcome.validation_error "Cannot join this room", sessions) := by
  have hcj : can_join sessions room user now tm cr = false := by
    unfold can_join is_full
    split
    · rfl
    · rw [if_pos (by simpa using hfull)]
  unfold room_join
  rw [hcj]
  rfl

/-- Witness for `join_full_room_rejected`: the capacity-1 room with one
live occupant rejects user 2 and keeps its single session row. -/
theorem join_full_room_rejected_witness :
    active_participants_count [occupant] fullRoom 100
        ≥ fullRoom.max_participants ∧
    room_join [occupant] fullRoom 2 100 9 5 (fun _ => true) (fun _ => true)
      = (JoinOutcome.validation_error "Cannot join this room", [occupant]) :=
  ⟨by decide,
   join_full_room_rejected [occupant] fullRoom 2 100 9 5 (fun _ => true)
     (fun _ => true) (by decide)⟩

/-! ## Broadcast routing over the channel-layer group -/

/-- The group events sent with `channel_layer.group_send` (consumers.py).
Events originating from an inbound message carry a `sender_channel`
field; the `user_join` / `user_leave` events carry none. -/
inductive BroadcastEvent where
  | textChange (sender_channel : Channel) (activity_id : Nat)
      (user_id : UserId)
  | cursorMove (sender_channel : Channel) (user_id : UserId)
      (position : JsonObj)
  | selectionChange (sender_channel : Channel) (user_id : UserId)
      (selection : JsonObj)
  | userTyping (sender_channel : Channel) (user_id : UserId)
      (is_typing : Bool)
  | documentSave (sender_channel : Channel) (user_id : UserId)
      (version : Option Nat)
  | userJoin (user : UserId)
  | userLeave (user : UserId)
deriving DecidableEq, Repr

/-- Whether the consumer on channel `selfChannel` forwards a received
group event to its client, per the `*_broadcast` methods (consumers.py):
the five message-originated handlers return early when
`event["sender_channel"] == self.channel_name`; `user_join_broadcast`
and `user_leave_broadcast` perform no such check. -/
def delivers (selfChannel : Channel) (ev : BroadcastEvent) : Bool :=
  match ev with
  | BroadcastEvent.textChange sender _ _ => !(sender == selfChannel)
  | BroadcastEvent.cursorMove sender _ _ => !(sender == selfChannel)
  | BroadcastEvent.selectionChange sender _ _ => !(sender == selfChannel)
  | BroadcastEvent.userTyping sender _ _ => !(sender == selfChannel)
  | BroadcastEvent.documentSave sender _ _ => !(sender == selfChannel)
  | BroadcastEvent.userJoin _ => true
  | BroadcastEvent.userLeave _ => true

/-- Embeds `channel_layer.group_send`: every channel in the room group runs its
broadcast handler; the recipients are the channels whose handler forwards
the event. -/
def group_send_recipients (group : List Channel) (ev : BroadcastEvent) :
    List Channel :=
  group.filter (fun c => delivers c ev)

/-- Embeds `handle_join_room` (consumers.py): `group_add` for the joining
connection precedes `broadcast_user_join`, so the `user_join` event is
group-sent to a group that contains the sender. -/
def handle_join_room_recipients (group : List Channel) (selfChannel : Channel)
    (uid : UserId) : List Channel :=
  group_send_recipients (group ++ [selfChannel]) (BroadcastEvent.userJoin uid)

/-- Embeds `disconnect` (consumers.py): `group_discard` for the closing
connection precedes `broadcast_user_leave`. -/
def disconnect_recipients (group : List Channel) (selfChannel : Channel)
    (uid : UserId) : List Channel :=
  group_send_recipients (group.filter (fun c => !(c == selfChannel)))
    (BroadcastEvent.userLeave uid)

/-- Claim C5 counterexample: the connection on channel 0 that joins the
room receives its own `user_join` broadcast back —
`user_join_broadcast` has no sender exclusion and the sender is already
in the group. -/
theorem sender_receives_own_user_join :
    handle_join_room_recipients [] 0 7 = [0] ∧
    0 ∈ handle_join_room_recipients [3] 0 7 := by
  decide

/-- Claim C5 amended: every broadcast carrying a `sender_channel` field
(`text_change`, `cursor_move`, `selection_change`, `user_typing`,
`document_save`) excludes the originating connection, and `user_leave`
is group-sent only after the sender left the group; the `user_join`
broadcast alone is also delivered back to its originating connection. -/
theorem sender_excluded_except_user_join (group : List Channel)
    (sender : Channel) (aid : Nat) (uid : UserId) (pos sel : JsonObj)
    (ty : Bool) (ver : Option Nat) :
    sender ∉ group_send_recipients group
        (BroadcastEvent.textChange sender aid uid) ∧
    sender ∉ group_send_recipients group
        (BroadcastEvent.cursorMove sender uid pos) ∧
    sender ∉ group_send_recipients group
        (BroadcastEvent.selectionChange sender uid sel) ∧
    sender ∉ group_send_recipients group
        (BroadcastEvent.userTyping sender uid ty) ∧
    sender ∉ group_send_recipients group
        (BroadcastEvent.documentSave sender uid ver) ∧
    sender ∉ disconnect_recipients group sender uid := by
  refine ⟨?_, ?_, ?_, ?_, ?_, ?_⟩ <;>
    simp [group_send_recipients, disconnect_recipients, delivers,
      List.mem_filter]

/-- A session whose transport (channel 7) is still open but whose
`last_seen` is outside the 5-minute window at time 400. -/
def staleSession : Session :=
  { id := 2
    room := 1
    user := 3
    status := SessionStatus.active
    connection_id := 7
    last_seen := 0 }

/-- A roomy active room for the liveness scenarios. -/
def wideRoom : Room :=
  { id := 1
    status := RoomStatus.active
    max_participants := 50
    allow_anonymous := true
    enable_cursor_tracking := true }

/-- Claim C8 counterexample: at time 400 the stale session counts for
nothing and is absent from the active-session listing, yet its channel 7
— still in the room group — does receive a `text_change` broadcast from
channel 8: broadcast recipients are not filtered by the liveness
window. -/
theorem stale_session_still_broadcast_recipient :
    sessionLive 400 staleSession = false ∧
    active_participants_count [staleSession] wideRoom 400 = 0 ∧
    staleSession ∉ get_active_sessions [staleSession] wideRoom 400 ∧
    staleSession.connection_id ∈
      group_send_recipients [7, 8] (BroadcastEvent.textChange 8 0 1) := by
  decide

/-- Claim C8 amended: `active_participants_count` equals the length of
the `get_active_sessions` listing (both filter on active status and a
`last_seen` within the 5-minute window); a session failing the liveness
filter is excluded from that listing; but broadcast recipiency depends
only on group membership and the per-event sender check, never on
session liveness. -/
theorem active_count_liveness_window (sessions : List Session) (room : Room)
    (now : Time) (s : Session) (hstale : sessionLive now s = false) :
    active_participants_count sessions room now
        = (get_active_sessions sessions room now).length ∧
    s ∉ get_active_sessions sessions room now ∧
    (∀ (group : List Channel) (ev : BroadcastEvent) (c : Channel),
      c ∈ group → delivers c ev = true →
      c ∈ group_send_recipients group ev) := by
  refine ⟨rfl, ?_, ?_⟩
  · intro hmem
    have hpred := (List.mem_filter.mp hmem).2
    simp [hstale] at hpred
  · intro group ev c hc hd
    exact List.mem_filter.mpr ⟨hc, hd⟩

/-- Witness for `active_count_liveness_window` at the stale session and
concrete group `[7, 8]`. -/
theorem active_count_liveness_window_witness :
    active_participants_count [staleSession] wideRoom 400
        = (get_active_sessions [staleSession] wideRoom 400).length ∧
    staleSession ∉ get_active_sessions [staleSession] wideRoom 400 ∧
    7 ∈ group_send_recipients [7, 8] (BroadcastEvent.textChange 8 0 1) := by
  have h := active_count_liveness_window [staleSession] wideRoom 400
    staleSession (by decide)
  exact ⟨h.1, h.2.1,
    h.2.2 [7, 8] (BroadcastEvent.textChange 8 0 1) 7 (by decide) (by decide)⟩

/-! ## Cursor store -/

/-- The fields of `CursorPosition` (models.py) the collaboration logic
reads or writes; unique per `(room, user)` (`CursorPosition.Meta`). -/
structure CursorRow where
  session : SessionId
  room : RoomId
  user : UserId
  position : JsonObj
  selection : Option JsonObj
deriving DecidableEq, Repr

/-- Embeds `CollaborationConsumer.update_cursor_position` (consumers.py):
`get_or_create` on the `(room, user)` unique key; an existing row always
gets its `position` overwritten and its `selection` overwritten only when
the new selection payload is truthy (`if selection_data:`); a missing row
is inserted with the given payloads. -/
def update_cursor_position (cursors : List CursorRow) (room : RoomId)
    (user : UserId) (sess : SessionId) (position_data : JsonObj)
    (selection_data : Option JsonObj) : List CursorRow :=
  match cursors.find? (fun c => c.room == room && c.user == user) with
  | some _ =>
      cursors.map (fun c =>
        if c.room == room && c.user == user then
          { c with
            position := position_data
            selection := if jsonTruthy selection_data then selection_data
              else c.selection }
        else c)
  | none =>
      cursors ++
        [{ session := sess
           room := room
           user := user
           position := position_data
           selection := selection_data }]

/-- Number of cursor rows for one `(room, user)` pair. -/
def cursor_pair_count (cursors : List CursorRow) (r : RoomId) (u : UserId) :
    Nat :=
  (cursors.filter (fun c => c.room == r && c.user == u)).length

theorem cursor_filter_map_comm (l : List CursorRow) (f : CursorRow → CursorRow)
    (hroom : ∀ t, (f t).room = t.room) (huser : ∀ t, (f t).user = t.user)
    (r : RoomId) (u : UserId) :
    (l.map f).filter (fun c => c.room == r && c.user == u) =
      (l.filter (fun c => c.room == r && c.user == u)).map f := by
  induction l with
  | nil => rfl
  | cons x xs ih =>
    simp only [List.map_cons, List.filter_cons, hroom, huser]
    cases hx : (x.room == r && x.user == u) <;> simp [hx, ih]

theorem update_cursor_spec (cursors : List CursorRow) (r : RoomId)
    (u : UserId) (sess : SessionId) (p : JsonObj) (sel : Option JsonObj)
    (hinv : ∀ r' u', cursor_pair_count cursors r' u' ≤ 1) :
    (∀ r' u',
      cursor_pair_count (update_cursor_position cursors r u sess p sel) r' u'
        ≤ 1) ∧
    ∃ c, (update_cursor_position cursors r u sess p sel).filter
        (fun c => c.room == r && c.user == u) = [c] ∧
      c.position = p ∧
      (jsonTruthy sel = true → c.selection = sel) := by
  cases hfind : cursors.find? (fun c => c.room == r && c.user == u) with
  | none =>
    have hzero : cursors.filter (fun c => c.room == r && c.user == u)
        = [] := by
      rw [List.filter_eq_nil_iff]
      exact List.find?_eq_none.mp hfind
    constructor
    · intro r' u'
      unfold update_cursor_position
      rw [hfind]
      unfold cursor_pair_count
      rw [List.filter_append, List.length_append]
      by_cases hmatch : ((r == r') && (u == u')) = true
      · have hr' : r = r' := by
          simp only [Bool.and_eq_true, beq_iff_eq] at hmatch
          exact hmatch.1
        have hu' : u = u' := by
          simp only [Bool.and_eq_true, beq_iff_eq] at hmatch
          exact hmatch.2
        subst hr'
        subst hu'
        rw [hzero]
        simp [List.filter_cons]
      · have hle : (cursors.filter
            (fun c => c.room == r' && c.user == u')).length ≤ 1 := hinv r' u'
        simp only [List.filter_cons, List.filter_nil]
        rw [if_neg]
        · simpa using hle
        · simpa using hmatch
    · refine ⟨⟨sess, r, u, p, sel⟩, ?_, rfl, fun _ => rfl⟩
      unfold update_cursor_position
      rw [hfind]
      rw [List.filter_append, hzero]
      simp [List.filter_cons]
  | some c₀ =>
    have hm₀ : c₀ ∈ cursors := List.mem_of_find?_eq_some hfind
    have hp₀ : (c₀.room == r && c₀.user == u) = true := by
      have htmp := List.find?_some
        (p := fun (c : CursorRow) => c.room == r && c.user == u) hfind
      simpa using htmp
    have hmem : c₀ ∈ cursors.filter (fun c => c.room == r && c.user == u) :=
      List.mem_filter.mpr ⟨hm₀, hp₀⟩
    have hone : cursors.filter (fun c => c.room == r && c.user == u)
        = [c₀] := by
      have hlen : (cursors.filter
          (fun c => c.room == r && c.user == u)).length ≤ 1 := hinv r u
      cases hl : cursors.filter (fun c => c.room == r && c.user == u) with
      | nil =>
        rw [hl] at hmem
        cases hmem
      | cons x xs =>
        cases xs with
        | nil =>
          rw [hl] at hmem
          rw [List.mem_singleton] at hmem
          rw [hmem]
        | cons y ys =>
          exfalso
          rw [hl] at hlen
          simp only [List.length_cons] at hlen
          omega
    constructor
    · intro r' u'
      unfold update_cursor_position
      rw [hfind]
      unfold cursor_pair_count
      rw [cursor_filter_map_comm]
      · rw [List.length_map]
        exact hinv r' u'
      · intro t
        split <;> rfl
      · intro t
        split <;> rfl
    · refine ⟨{ c₀ with
        position := p
        selection := if jsonTruthy sel then sel else c₀.selection },
        ?_, rfl, ?_⟩
      · unfold update_cursor_position
        rw [hfind]
        rw [cursor_filter_map_comm]
        · rw [hone]
          simp only [List.map_cons, List.map_nil]
          rw [if_pos hp₀]
        · intro t
          split <;> rfl
        · intro t
          split <;> rfl
      · intro htruthy
        simp [htruthy]

/-- Claim C7: starting from a cursor table unique per `(room, user)`,
submitting position `P1` then `P2` (with selections `S1` then `S2`)
leaves the table unique per pair with exactly one row for the pair,
holding `P2` — and holding `S2` whenever the second update supplied a
truthy selection. -/
theorem cursor_updates_overwrite (cursors : List CursorRow) (r : RoomId)
    (u : UserId) (sess : SessionId) (p1 p2 : JsonObj)
    (sel1 sel2 : Option JsonObj)
    (hinv : ∀ r' u', cursor_pair_count cursors r' u' ≤ 1) :
    (∀ r' u',
      cursor_pair_count
        (update_cursor_position
          (update_cursor_position cursors r u sess p1 sel1) r u sess p2 sel2)
        r' u' ≤ 1) ∧
    ∃ c, (update_cursor_position
        (update_cursor_position cursors r u sess p1 sel1) r u sess p2
        sel2).filter (fun c => c.room == r && c.user == u) = [c] ∧
      c.position = p2 ∧
      (jsonTruthy sel2 = true → c.selection = sel2) := by
  have h1 := update_cursor_spec cursors r u sess p1 sel1 hinv
  exact update_cursor_spec (update_cursor_position cursors r u sess p1 sel1)
    r u sess p2 sel2 h1.1

/-- Witness for `cursor_updates_overwrite`: two concrete updates on an
empty table leave exactly one row for `(1, 2)`, holding the second
position and the second (truthy) selection. -/
theorem cursor_updates_overwrite_witness :
    cursor_pair_count
      (update_cursor_position
        (update_cursor_position [] 1 2 3 [("line", 1)] none) 1 2 3
        [("line", 9)] (some [("sel", 4)])) 1 2 ≤ 1 ∧
    (update_cursor_position
        (update_cursor_position [] 1 2 3 [("line", 1)] none) 1 2 3
        [("line", 9)] (some [("sel", 4)])).filter
        (fun c => c.room == 1 && c.user == 2)
      = [{ session := 3, room := 1, user := 2, position := [("line", 9)],
           selection := some [("sel", 4)] }] := by
  have h := cursor_updates_overwrite [] 1 2 3 [("line", 1)] [("line", 9)]
    none (some [("sel", 4)])
    (by intro r' u'; simp [cursor_pair_count])
  exact ⟨h.1 1 2, by decide⟩

/-! ## Consumer message handlers -/

/-- Per-connection consumer context once authenticated and joined. -/
structure ConsumerCtx where
  room : Room
  user : UserId
  session : SessionId
  channel : Channel
deriving Repr

/-- The room state the message handlers touch. -/
structure ServerState where
  activities : List Activity
  cursors : List CursorRow
deriving Repr

/-- Inbound `text_change{operation, position, content}` frame; `none`
encodes a missing JSON key. -/
structure TextChangeMsg where
  operation : Option String
  position : Option JsonObj
  content : Option String
deriving Repr

/-- Inbound `cursor_move{position}` frame. -/
structure CursorMoveMsg where
  position : Option JsonObj
deriving Repr

/-- Inbound `selection_change{position, selection}` frame. -/
structure SelectionChangeMsg where
  position : Option JsonObj
  selection : Option JsonObj
deriving Repr

/-- Inbound `user_typing{is_typing}` frame. -/
structure UserTypingMsg where
  is_typing : Option Bool
deriving Repr

/-- Inbound `document_save{version, auto_save}` frame. -/
structure DocumentSaveMsg where
  version : Option Nat
  auto_save : Option Bool
deriving Repr

/-- Embeds `CollaborationConsumer.handle_text_change` (consumers.py): requires
`operation`, `position` and `content` to be present (otherwise only an
error frame is sent), records an activity — always of type
`"text_insert"`, whatever `operation` holds — and group-sends the
`text_change_broadcast` event. -/
def handle_text_change (ctx : ConsumerCtx) (st : ServerState)
    (msg : TextChangeMsg) (now : Time) (fid : Nat) :
    ServerState × List BroadcastEvent :=
  match msg.operation, msg.position, msg.content with
  | some op, some pos, some content =>
      match record_activity st.activities ctx.room.id ctx.session ctx.user
          ActivityType.text_insert
          (ActivityData.textChange op pos content content.length) now fid with
      | (activity, log) =>
          ({ st with activities := log },
           [BroadcastEvent.textChange ctx.channel activity.id ctx.user])
  | _, _, _ => (st, [])

/-- Embeds `CollaborationConsumer.handle_cursor_move` (consumers.py): upserts
the cursor row (`position` defaulting to `{}`, no selection argument) and
group-sends `cursor_move_broadcast` when cursor tracking is enabled; no
activity is recorded. -/
def handle_cursor_move (ctx : ConsumerCtx) (st : ServerState)
    (msg : CursorMoveMsg) : ServerState × List BroadcastEvent :=
  ({ st with
     cursors := update_cursor_position st.cursors ctx.room.id ctx.user
       ctx.session (msg.position.getD []) none },
   if ctx.room.enable_cursor_tracking then
     [BroadcastEvent.cursorMove ctx.channel ctx.user (msg.position.getD [])]
   else [])

/-- Embeds `CollaborationConsumer.handle_selection_change` (consumers.py):
upserts the cursor row with the selection payload (both defaulting to
`{}`) and group-sends `selection_change_broadcast` when cursor tracking
is enabled; no activity is recorded. -/
def handle_selection_change (ctx : ConsumerCtx) (st : ServerState)
    (msg : SelectionChangeMsg) : ServerState × List BroadcastEvent :=
  ({ st with
     cursors := update_cursor_position st.cursors ctx.room.id ctx.user
       ctx.session (msg.position.getD []) (some (msg.selection.getD [])) },
   if ctx.room.enable_cursor_tracking then
     [BroadcastEvent.selectionChange ctx.channel ctx.user
       (msg.selection.getD [])]
   else [])

/-- Embeds `CollaborationConsumer.handle_user_typing` (consumers.py): only
group-sends `user_typing_broadcast`; nothing is stored. -/
def handle_user_typing (ctx : ConsumerCtx) (st : ServerState)
    (msg : UserTypingMsg) : ServerState × List BroadcastEvent :=
  (st,
   [BroadcastEvent.userTyping ctx.channel ctx.user
     (msg.is_typing.getD false)])

/-- Embeds `CollaborationConsumer.handle_document_save` (consumers.py): records
a `"document_save"` activity and group-sends
`document_save_broadcast`. -/
def handle_document_save (ctx : ConsumerCtx) (st : ServerState)
    (msg : DocumentSaveMsg) (now : Time) (fid : Nat) :
    ServerState × List BroadcastEvent :=
  match record_activity st.activities ctx.room.id ctx.session ctx.user
      ActivityType.document_save
      (ActivityData.documentSave msg.version (msg.auto_save.getD false))
      now fid with
  | (_, log) =>
      ({ st with activities := log },
       [BroadcastEvent.documentSave ctx.channel ctx.user msg.version])

/-- Claim C6: the transient message types (`cursor_move`,
`selection_change`, `user_typing`) create no Activity row and are
assigned no sequence number — the activity log is untouched — while the
mutating types (`text_change` with its required fields present,
`document_save`) always append exactly one activity carrying a sequence
number ≥ 1. -/
theorem transient_bypasses_log (ctx : ConsumerCtx) (st : ServerState)
    (cm : CursorMoveMsg) (sc : SelectionChangeMsg) (ut : UserTypingMsg)
    (ds : DocumentSaveMsg) (op : String) (pos : JsonObj) (content : String)
    (now : Time) (fid fid' : Nat) :
    (handle_cursor_move ctx st cm).1.activities = st.activities ∧
    (handle_selection_change ctx st sc).1.activities = st.activities ∧
    (handle_user_typing ctx st ut).1.activities = st.activities ∧
    (∃ a, (handle_text_change ctx st ⟨some op, some pos, some content⟩ now
        fid).1.activities = st.activities ++ [a] ∧
      1 ≤ a.sequence_number) ∧
    (∃ a, (handle_document_save ctx st ds now fid').1.activities
        = st.activities ++ [a] ∧
      1 ≤ a.sequence_number) := by
  refine ⟨rfl, rfl, rfl, ⟨_, rfl, ?_⟩, ⟨_, rfl, ?_⟩⟩
  · show 1 ≤ next_sequence_number st.activities ctx.room.id
    unfold next_sequence_number
    exact Nat.le_add_left 1 _
  · show 1 ≤ next_sequence_number st.activities ctx.room.id
    unfold next_sequence_number
    exact Nat.le_add_left 1 _

/-- Claim C10: whatever the inbound `operation` field holds — insert,
delete, format, replace or anything else — an activity row created by
`handle_text_change` always has type `text_insert`; the handler never
creates a `text_delete`, `text_format` or `text_replace` row (and a
malformed message creates nothing at all). -/
theorem text_change_always_text_insert (ctx : ConsumerCtx) (st : ServerState)
    (msg : TextChangeMsg) (now : Time) (fid : Nat) :
    (handle_text_change ctx st msg now fid).1.activities = st.activities ∨
    ∃ a, (handle_text_change ctx st msg now fid).1.activities
        = st.activities ++ [a] ∧
      a.activity_type = ActivityType.text_insert := by
  obtain ⟨opq, posq, contentq⟩ := msg
  cases opq with
  | none => cases posq <;> cases contentq <;> exact Or.inl rfl
  | some op =>
    cases posq with
    | none => cases contentq <;> exact Or.inl rfl
    | some pos =>
      cases contentq with
      | none => exact Or.inl rfl
      | some content => exact Or.inr ⟨_, rfl, rfl⟩

end SmartCollab
